import Mathlib

/-!
Verification of the natural-language specification of the `aoc2020` repository
(independent single-file Advent of Code 2020 solutions in Rust) against the
source code, by shallow embedding of the relevant programs into Lean.

The embedding covers:
* `src/bin/day20.rs` — the tile-puzzle assembly and sea-monster detection
  engine (tiles, edge ids, rotation/reflection, sorting into corner/edge/inside
  tiles, tile assembly loops, image stitching, sea-monster search, parsing);
* `src/bin/day25.rs` — modular exponentiation by repeated squaring and the
  brute-force discrete-log search;
* `src/util.rs` — the shared line-by-line file reader `file_to_vec_parsed`.

Modelling conventions:
* Rust `Vec<Vec<bool>>` grids are Lean `List (List Bool)`; reads use a total
  lookup `gget` (out-of-range reads default to `false`; all theorems only rely
  on in-range reads, and the safety claims show the program's reads are
  in range).
* Rust `usize` is `Nat`; where a multiplication could overflow the 64-bit
  machine word in release mode, the embedding takes the product modulo
  `2 ^ 64` (`USIZE`), and the theorems prove the wrap never changes the value.
* Code that can panic (assert failures, `unwrap`, array slicing out of range,
  non-exhaustive matches) is embedded as an `Option`-returning function where
  `none` means "the Rust program panics".
* Unbounded `while` loops are embedded as fuel recursion; termination claims
  state that a concrete fuel bound suffices.
* Rust `HashMap` iteration order is unspecified; the embedding processes tiles
  in input-list order.  The tile store is keyed by tile id in Rust, so
  theorems that depend on it carry a `Nodup` hypothesis on the tile ids.
-/

/-! ### Boolean grids -/

/-- Total read of pixel `(i, j)` of a grid (row-major), defaulting to `false`
out of range.  Rust indexes `grid[i][j]` directly; the claims that rely on
indexing prove the accesses are in range. -/
def gget (g : List (List Bool)) (i j : Nat) : Bool :=
  (g.getD i []).getD j false

/-- Build the `n × n` grid whose `(i, j)` entry is `f i j`.  This is how the
embedding renders Rust loops that overwrite every cell of a fresh grid. -/
def mkGrid (n : Nat) (f : Nat → Nat → Bool) : List (List Bool) :=
  (List.range n).map (fun i => (List.range n).map (fun j => f i j))

/-- Well-formedness of a grid: it is a square `n × n` list of lists.  Rust's
`Tile::new` asserts exactly this shape. -/
def GridWF (n : Nat) (g : List (List Bool)) : Prop :=
  g.length = n ∧ ∀ r ∈ g, r.length = n

instance (n : Nat) (g : List (List Bool)) : Decidable (GridWF n g) := by
  unfold GridWF; infer_instance

/-! ### Day 20: tiles and edges (`src/bin/day20.rs`) -/

/-- Rust `bools_to_int`: the booleans written as a binary numeral (first
element most significant).  The Rust code goes through a string of `'0'`/`'1'`
and `usize::from_str_radix(_, 2)`; on a nonempty sequence that is exactly this
left fold.  (The empty sequence would make `from_str_radix` fail; tiles in
scope always have positive side length.) -/
def bools_to_int (l : List Bool) : Nat :=
  l.foldl (fun a b => 2 * a + b.toNat) 0

/-- Rust `EdgeInfo`: the oriented ids of an edge read forwards and
backwards. -/
structure EdgeInfo where
  fwd_id : Nat
  bck_id : Nat
  deriving DecidableEq

/-- Rust `EdgeInfo::from_bools`. -/
def EdgeInfo.from_bools (l : List Bool) : EdgeInfo :=
  { fwd_id := bools_to_int l, bck_id := bools_to_int l.reverse }

/-- Rust `EdgeInfo::oriented_id`. -/
def EdgeInfo.oriented_id (e : EdgeInfo) : Nat := e.fwd_id

/-- Rust `EdgeInfo::unoriented_id`. -/
def EdgeInfo.unoriented_id (e : EdgeInfo) : Nat := min e.fwd_id e.bck_id

/-- Rust `Direction`. -/
inductive Direction
  | North
  | South
  | East
  | West
  deriving DecidableEq

open Direction

/-- Rust `Tile`.  The `len` field of the Rust struct always equals
`grid.len()` (asserted square in `Tile::new` and preserved by every
operation), so the embedding uses `grid.length` as the length. -/
structure Tile where
  id : Nat
  grid : List (List Bool)
  times_reoriented : Nat
  deriving DecidableEq

/-- The Rust `len` field (always `grid.len()`). -/
def Tile.len (t : Tile) : Nat := t.grid.length

/-- Rust `Tile::edge_from_coords`. -/
def Tile.edge_from_coords (t : Tile) (coords : List (Nat × Nat)) : EdgeInfo :=
  EdgeInfo.from_bools (coords.map (fun p => gget t.grid p.1 p.2))

/-- Rust `Tile::get_edge`. -/
def Tile.get_edge (t : Tile) (dir : Direction) : EdgeInfo :=
  let n := t.len
  match dir with
  | North => t.edge_from_coords ((List.range n).map (fun j => (0, j)))
  | East => t.edge_from_coords ((List.range n).map (fun i => (i, n - 1)))
  | South => t.edge_from_coords ((List.range n).map (fun j => (n - 1, j)))
  | West => t.edge_from_coords ((List.range n).map (fun i => (i, 0)))

/-- Rust `Tile::get_edges` (order North, East, South, West). -/
def Tile.get_edges (t : Tile) : List EdgeInfo :=
  [t.get_edge North, t.get_edge East, t.get_edge South, t.get_edge West]

/-- The grid produced by Rust `Tile::rotate`: the loop writes
`new[j][len-1-i] = old[i][j]` for all `i, j`, i.e. entry `(a, b)` of the new
grid is entry `(n-1-b, a)` of the old one, and every cell of the clone is
overwritten. -/
def gridRotate (n : Nat) (g : List (List Bool)) : List (List Bool) :=
  mkGrid n (fun a b => gget g (n - 1 - b) a)

/-- The grid produced by Rust `Tile::reflect`: `new[j][i] = old[i][j]`
(the transpose). -/
def gridReflect (n : Nat) (g : List (List Bool)) : List (List Bool) :=
  mkGrid n (fun a b => gget g b a)

/-- Rust `Tile::rotate`. -/
def Tile.rotate (t : Tile) : Tile :=
  { t with grid := gridRotate t.len t.grid }

/-- Rust `Tile::reflect`. -/
def Tile.reflect (t : Tile) : Tile :=
  { t with grid := gridReflect t.len t.grid }

/-- Rust `Tile::reorient`: rotate, bump the counter, and additionally reflect
when the counter becomes a multiple of 4. -/
def Tile.reorient (t : Tile) : Tile :=
  let r := { t.rotate with times_reoriented := t.times_reoriented + 1 }
  if r.times_reoriented % 4 = 0 then r.reflect else r

/-- `k` successive calls of `.reorient()`, first call innermost. -/
def reorient_iter : Nat → Tile → Tile
  | 0, t => t
  | k + 1, t => reorient_iter k t.reorient

/-- Rust `Tile::fits_core`. -/
def Tile.fits_core (t other : Tile) (dir1 dir2 : Direction) : Bool :=
  (t.get_edge dir1).oriented_id == (other.get_edge dir2).oriented_id

/-- Rust `Tile::fits_south`. -/
def Tile.fits_south (t other : Tile) : Bool := t.fits_core other South North

/-- Rust `Tile::fits_east`. -/
def Tile.fits_east (t other : Tile) : Bool := t.fits_core other East West

/-! ### Day 20: unsorted and sorted puzzles -/

/-- Rust `UnsortedPuzzle`.  The Rust struct stores a `HashMap` from tile id to
tile and a `HashMap` from unoriented edge id to the list of tile ids carrying
that edge; both are determined by the tile list, so the embedding keeps the
list and recomputes the derived maps. -/
structure UnsortedPuzzle where
  tiles : List Tile
  deriving DecidableEq

/-- The length of the `edges` map entry for unoriented id `e`: one entry is
pushed per (tile, edge) pair, so this is the number of edge slots across all
tiles whose unoriented id is `e`. -/
def UnsortedPuzzle.edge_count (p : UnsortedPuzzle) (e : Nat) : Nat :=
  (p.tiles.map (fun t => (t.get_edges.map EdgeInfo.unoriented_id).count e)).sum

/-- Rust `UnsortedPuzzle::is_puzzle_edge` (the boolean result; the assert that
the count is 1 or 2 is the precondition `EdgeCountPre`). -/
def UnsortedPuzzle.is_puzzle_edge (p : UnsortedPuzzle) (e : EdgeInfo) : Bool :=
  p.edge_count e.unoriented_id == 1

/-- The precondition asserted inside `is_puzzle_edge`: every unoriented edge
id that occurs at all occurs either once or twice among all tile edges. -/
def EdgeCountPre (p : UnsortedPuzzle) : Prop :=
  ∀ t ∈ p.tiles, ∀ e ∈ t.get_edges,
    p.edge_count e.unoriented_id = 1 ∨ p.edge_count e.unoriented_id = 2

instance (p : UnsortedPuzzle) : Decidable (EdgeCountPre p) := by
  unfold EdgeCountPre; infer_instance

/-- Rust `SortedPuzzle`. -/
structure SortedPuzzle where
  corner_tiles : List Tile
  edge_tiles : List Tile
  inside_tiles : List Tile
  puzzle_len : Nat
  deriving DecidableEq

/-- The number of a tile's four edges that are puzzle-boundary edges (the
`unique_edges` counter of the loop in `SortedPuzzle::new`). -/
def Tile.unique_edges (p : UnsortedPuzzle) (t : Tile) : Nat :=
  (t.get_edges.filter (fun e => p.is_puzzle_edge e)).length

/-- One step of the sorting loop in `SortedPuzzle::new`: push the tile into
the bucket selected by `unique_edges`; three or more unique edges panics. -/
def sort_step (p : UnsortedPuzzle) (acc : SortedPuzzle) (t : Tile) :
    Option SortedPuzzle :=
  match t.unique_edges p with
  | 2 => some { acc with corner_tiles := acc.corner_tiles ++ [t] }
  | 1 => some { acc with edge_tiles := acc.edge_tiles ++ [t] }
  | 0 => some { acc with inside_tiles := acc.inside_tiles ++ [t] }
  | _ => none

/-- The sorting loop of `SortedPuzzle::new` over the tiles. -/
def sort_fold (p : UnsortedPuzzle) : List Tile → SortedPuzzle → Option SortedPuzzle
  | [], acc => some acc
  | t :: ts, acc =>
    match sort_step p acc t with
    | none => none
    | some acc' => sort_fold p ts acc'

/-- Rust `SortedPuzzle::check_tile_counts` (a conjunction of `assert_eq!`s).
The `edges.len()` of the Rust map is the number of distinct unoriented edge
ids. -/
def SortedPuzzle.check_tile_counts (s : SortedPuzzle) (p : UnsortedPuzzle) : Bool :=
  let n := s.puzzle_len
  s.corner_tiles.length == 4 &&
  s.edge_tiles.length == 4 * (n - 2) &&
  s.inside_tiles.length == (n - 2) * (n - 2) &&
  p.tiles.length == n * n &&
  ((p.tiles.flatMap (fun t => t.get_edges.map EdgeInfo.unoriented_id)).dedup.length
     == 2 * n * (n + 1))

/-- Rust `SortedPuzzle::new`: sort the tiles, compute the puzzle dimension,
and run the count assertions (`none` = some assertion panicked). -/
def SortedPuzzle.new (p : UnsortedPuzzle) : Option SortedPuzzle :=
  match sort_fold p p.tiles
      { corner_tiles := [], edge_tiles := [], inside_tiles := [], puzzle_len := 0 } with
  | none => none
  | some s0 =>
    let s := { s0 with puzzle_len := s0.edge_tiles.length / 4 + 2 }
    if s.check_tile_counts p then some s else none

/-- Rust `part1_answer`: the product of the corner tile ids. -/
def part1_answer (s : SortedPuzzle) : Nat :=
  (s.corner_tiles.map Tile.id).prod

/-- The corner-tile list that `SortedPuzzle::new` produces (empty if the
constructor panics); convenience accessor for stating claims. -/
def corners_of (p : UnsortedPuzzle) : List Tile :=
  ((SortedPuzzle.new p).map SortedPuzzle.corner_tiles).getD []

/-! ### Day 20: assembling the tiles -/

/-- Rust `fits_southeast`.  The Rust body is a conjunction of
`above.is_some() || is_puzzle_edge(North)`, `above.is_none() || fits_south`,
and the same for `left`/West; on `some` the first disjunct of the first pair
is true and the unwrap succeeds, so it is the following case split. -/
def fits_southeast (p : UnsortedPuzzle) (above left : Option Tile) (t : Tile) :
    Bool :=
  (match above with
   | none => p.is_puzzle_edge (t.get_edge North)
   | some a => a.fits_south t) &&
  (match left with
   | none => p.is_puzzle_edge (t.get_edge West)
   | some l => l.fits_east t)

/-- Rust `assemble_tile`: keep reorienting until the tile fits; embedded with
fuel (`none` = the `while` loop has not finished within `fuel` iterations). -/
def assemble_tile : Nat → UnsortedPuzzle → Option Tile → Option Tile → Tile →
    Option Tile
  | 0, _, _, _, _ => none
  | fuel + 1, p, above, left, t =>
    if fits_southeast p above left t then some t
    else assemble_tile fuel p above left t.reorient

/-! ### Day 20: assembling the image -/

/-- Read tile `(i, j)` of the assembled `puzzle_len × puzzle_len` tile grid. -/
def tile_at (grid : List (List Tile)) (i j : Nat) : Tile :=
  (grid.getD i []).getD j { id := 0, grid := [], times_reoriented := 0 }

/-- The border-consistency `assert_eq!`s of `AssembledImage::new`: for every
tile, its top row agrees with the bottom row of the tile above on the first
`tile_len - 2` columns, and its left column with the right column of the tile
to the left on the first `tile_len - 2` rows. -/
def stitch_asserts_ok (assembled : List (List Tile)) (tile_len puzzle_len : Nat) :
    Bool :=
  let canvas_step := tile_len - 2
  let tile_last := tile_len - 1
  (List.range puzzle_len).all (fun row =>
    (List.range puzzle_len).all (fun col =>
      (row == 0 ||
        (List.range canvas_step).all (fun j =>
          gget (tile_at assembled row col).grid 0 j
            == gget (tile_at assembled (row - 1) col).grid tile_last j)) &&
      (col == 0 ||
        (List.range canvas_step).all (fun i =>
          gget (tile_at assembled row col).grid i 0
            == gget (tile_at assembled row (col - 1)).grid i tile_last))))

/-- The stitched canvas of `AssembledImage::new`: cell
`(canvas_step * row + i, canvas_step * col + j)` is written exactly once, with
pixel `(i+1, j+1)` of tile `(row, col)`. -/
def stitch_canvas (assembled : List (List Tile)) (tile_len puzzle_len : Nat) :
    List (List Bool) :=
  let canvas_step := tile_len - 2
  mkGrid (canvas_step * puzzle_len) (fun x y =>
    gget (tile_at assembled (x / canvas_step) (y / canvas_step)).grid
      (x % canvas_step + 1) (y % canvas_step + 1))

/-- Rust `Tile::new` (asserts that the grid is square). -/
def Tile.new (id : Nat) (grid : List (List Bool)) : Option Tile :=
  if grid.all (fun r => r.length == grid.length) then
    some { id := id, grid := grid, times_reoriented := 0 }
  else none

/-- Rust `AssembledImage` (a newtype around `Tile`). -/
structure AssembledImage where
  tile : Tile
  deriving DecidableEq

/-- Rust `AssembledImage::new` on the fields of an `AssembledPuzzle`
(`none` = one of its assertions panicked). -/
def AssembledImage.new (assembled : List (List Tile)) (tile_len puzzle_len : Nat) :
    Option AssembledImage :=
  if stitch_asserts_ok assembled tile_len puzzle_len then
    (Tile.new 0 (stitch_canvas assembled tile_len puzzle_len)).map
      (fun t => { tile := t })
  else none

/-! ### Day 20: sea monsters -/

/-- Rust `SEAMONSTER_COORDS`. -/
def SEAMONSTER_COORDS : List (Nat × Nat) :=
  [(1, 0), (2, 1), (2, 4), (1, 5), (1, 6), (2, 7), (2, 10), (1, 11), (1, 12),
   (2, 13), (2, 16), (1, 17), (1, 18), (0, 18), (1, 19)]

/-- Rust `AssembledImage::seamonster_at`: `false` immediately when the 3×20
window does not fit, otherwise check all monster pixels. -/
def AssembledImage.seamonster_at (img : AssembledImage) (i j : Nat) : Bool :=
  if img.tile.len ≤ i + 2 ∨ img.tile.len ≤ j + 19 then false
  else SEAMONSTER_COORDS.all (fun d => gget img.tile.grid (i + d.1) (j + d.2))

/-- Rust `AssembledImage::count_seamonsters`: scan every `(i, j)` in the full
index range. -/
def AssembledImage.count_seamonsters (img : AssembledImage) : Nat :=
  ((List.range img.tile.len).map (fun i =>
    ((List.range img.tile.len).filter (fun j => img.seamonster_at i j)).length)).sum

/-- The `while` loop of `AssembledImage::find_seamonster_orientation`:
reorient until some sea monster is found; embedded with fuel (`none` = the
loop has not finished within `fuel` iterations). -/
def find_seamonster_orientation : Nat → AssembledImage → Option AssembledImage
  | 0, _ => none
  | fuel + 1, img =>
    if img.count_seamonsters = 0 then
      find_seamonster_orientation fuel { tile := img.tile.reorient }
    else some img

/-- Rust `AssembledImage::erase_seamonster_at` as a grid transformation: set
all monster pixels of the window at `(i, j)` to `false`. -/
def erase_seamonster_at (g : List (List Bool)) (i j : Nat) : List (List Bool) :=
  mkGrid g.length (fun a b =>
    if SEAMONSTER_COORDS.any (fun d => i + d.1 == a && j + d.2 == b) then false
    else gget g a b)

/-- Rust `part2_answer`: the number of `true` pixels. -/
def part2_answer (clean : AssembledImage) : Nat :=
  (clean.tile.grid.map (fun r => (r.filter id).length)).sum

/-! ### Day 20: input parsing, and the shared reader (`src/util.rs`) -/

/-- Sequential `Option`-valued map: the first failure aborts.  This is how a
Rust iterator chain whose body can panic is embedded (the panic of the first
bad element happens before any later element is looked at). -/
def option_mapM {α β : Type} (f : α → Option β) : List α → Option (List β)
  | [] => some []
  | a :: l =>
    match f a with
    | none => none
    | some b =>
      match option_mapM f l with
      | none => none
      | some bs => some (b :: bs)

/-- Rust `util::file_to_vec_parsed` on the lines of the file: parse each line,
panicking (i.e. `none`) on the first unparseable one.  (The `File::open`
unwrap, which panics on a missing file, is outside the embedding.) -/
def file_to_vec_parsed {α : Type} (parse : String → Option α)
    (lines : List String) : Option (List α) :=
  option_mapM parse lines

/-- Rust `usize::from_str` on a list of characters: an optional leading `'+'`
followed by at least one decimal digit and nothing else.  (The overflow check
of the real parser is not modelled; all values in scope are small.) -/
def parse_usize (s : List Char) : Option Nat :=
  let ds := match s with
    | '+' :: rest => rest
    | _ => s
  if ds ≠ [] ∧ ds.all Char.isDigit then
    some (ds.foldl (fun a c => 10 * a + (c.toNat - '0'.toNat)) 0)
  else none

/-- One row of a tile in `parse_input`: `'#'` is `true`, `'.'` is `false`,
anything else panics. -/
def parse_row (s : String) : Option (List Bool) :=
  option_mapM (fun ch =>
    if ch = '#' then some true
    else if ch = '.' then some false
    else none) s.toList

/-- One 12-line block of `parse_input`: the header checks
(`lines[i][0..5] == "Tile "`, `lines[i][9..10] == ":"`,
`lines[i+11] == ""`), the id parse of `lines[i][5..9]`, then ten rows each
asserted to have 10 cells, then `Tile::new`.  Byte slices are modelled as
character slices (the inputs in scope are ASCII; a non-ASCII byte boundary
would also panic). -/
def parse_block (block : List String) : Option Tile :=
  if (block.getD 0 "").toList.take 5 = "Tile ".toList ∧
      ((block.getD 0 "").toList.drop 9).take 1 = [':'] ∧
      block.getD 11 "" = "" then
    match parse_usize (((block.getD 0 "").toList.drop 5).take 4) with
    | none => none
    | some tile_id =>
      match option_mapM (fun j => parse_row (block.getD (j + 1) "")) (List.range 10) with
      | none => none
      | some grid =>
        if grid.all (fun r => r.length == 10) then Tile.new tile_id grid
        else none
  else none

/-- The block loop of `parse_input`, with fuel (the loop advances by 12 lines
per iteration, so `lines.length` iterations always suffice). -/
def parse_input_go : Nat → List String → Option (List Tile)
  | 0, _ => none
  | fuel + 1, ls =>
    if ls.isEmpty then some []
    else
      match parse_block (ls.take 12) with
      | none => none
      | some t =>
        match parse_input_go fuel (ls.drop 12) with
        | none => none
        | some ts => some (t :: ts)

/-- Rust `parse_input`: assert the line count is a multiple of 12, then parse
the blocks. -/
def parse_input (lines : List String) : Option (List Tile) :=
  if lines.length % 12 = 0 then parse_input_go (lines.length + 1) lines
  else none

/-! ### Day 25 (`src/bin/day25.rs`) -/

/-- Rust `MODULUS`. -/
def MODULUS : Nat := 20201227

/-- The size of the 64-bit machine word: `usize` multiplication wraps modulo
this value in release mode. -/
def USIZE : Nat := 2 ^ 64

/-- The `while pow > 0` loop of Rust `encrypt` (repeated squaring), with fuel.
Every product is taken modulo the machine word `USIZE` and then reduced as the
code does; the loop halves `pow` each iteration, so `pow + 1` fuel always
suffices. -/
def encrypt_loop : Nat → Nat → Nat → Nat → Nat
  | 0, _, _, result => result
  | fuel + 1, base, pow, result =>
    if pow = 0 then result
    else
      let result' := if pow % 2 = 1 then result * base % USIZE % MODULUS else result
      encrypt_loop fuel (base * base % USIZE % MODULUS) (pow / 2) result'

/-- Rust `encrypt`: `base^pow (mod MODULUS)` by repeated squaring, after
first reducing `base`. -/
def encrypt (base pow : Nat) : Nat :=
  encrypt_loop (pow + 1) (base % MODULUS) pow 1

/-- The `while prod != result` loop of Rust `brute_force_attack`, with fuel
(`none` = the loop has not finished within `fuel` iterations). -/
def brute_force_loop (base result : Nat) : Nat → Nat → Nat → Option Nat
  | 0, _, _ => none
  | fuel + 1, prod, pow =>
    if prod = result then some pow
    else brute_force_loop base result fuel (prod * base % USIZE % MODULUS) (pow + 1)

/-- Rust `brute_force_attack`, including its precondition assert
(`base > 0 && result > 0 && result < MODULUS`). -/
def brute_force_attack (fuel base result : Nat) : Option Nat :=
  if base > 0 ∧ result > 0 ∧ result < MODULUS then
    brute_force_loop base result fuel 1 0
  else none

/-- Rust `util::iter_to_pair`: exactly two elements, else panic. -/
def iter_to_pair {α : Type} (l : List α) : Option (α × α) :=
  match l with
  | [a, b] => some (a, b)
  | _ => none

/-- The day-25 `main` as a function from the lines of `input/day25.txt` to the
lines printed on standard output (`none` = the program panics or the
brute-force loops exceed the fuel; Rust would print a prefix of these lines
before panicking). -/
def day25_main (fuel : Nat) (lines : List String) : Option (List String) :=
  match file_to_vec_parsed (fun s => parse_usize s.toList) lines with
  | none => none
  | some input =>
    match iter_to_pair input with
    | none => none
    | some (device_pub, door_pub) =>
      match brute_force_attack fuel 7 device_pub,
            brute_force_attack fuel 7 door_pub with
      | some device_pow, some door_pow =>
        let answer1 := encrypt 7 (device_pow * door_pow)
        let answer2 := encrypt device_pub door_pow
        let answer3 := encrypt door_pub device_pow
        if answer1 = answer2 ∧ answer1 = answer3 then
          some ["Device public key: " ++ toString device_pub,
                "Door public key: " ++ toString door_pub,
                "===== Part 1 =====",
                "Device loop size: " ++ toString device_pow,
                "Door loop size: " ++ toString door_pow,
                "Answer (encryption key): " ++ toString answer1,
                "===== Part 2 =====",
                "Freebie!"]
        else none
      | _, _ => none

/-- A string that is a plain decimal numeral. -/
def is_numeric_string (s : String) : Bool :=
  !s.toList.isEmpty && s.toList.all Char.isDigit

/-! ### Claim-side specification predicates -/

/-- Modelled from the claim's wording for C1: the number of the tile's four
unoriented edge ids (with multiplicity, in North/East/South/West order) that
occur in no other tile of the puzzle.  This is the reading "exactly two of its
four unoriented edge ids occur in no other tile", to be compared with the
code's classification by `unique_edges` (global occurrence count exactly 1). -/
def spec_no_other_tile_count (p : UnsortedPuzzle) (t : Tile) : Nat :=
  ((t.get_edges.map EdgeInfo.unoriented_id).filter (fun e =>
    !(p.tiles.any (fun u =>
       u.id != t.id && (u.get_edges.map EdgeInfo.unoriented_id).contains e)))).length

/-- The amended content of C1, about a puzzle whose `SortedPuzzle::new`
completed without panicking: the code classifies exactly those tiles as
corners whose `unique_edges` count is 2, the corner list has length 4 (as
asserted), and the printed Part 1 answer is the product of the ids of the
tiles so classified. -/
def Part1Spec (p : UnsortedPuzzle) : Prop :=
  (∀ t ∈ p.tiles, (t ∈ corners_of p ↔ t.unique_edges p = 2)) ∧
  (corners_of p).length = 4 ∧
  ((SortedPuzzle.new p).map part1_answer).getD 0 =
    ((p.tiles.filter (fun t => t.unique_edges p == 2)).map Tile.id).prod

/-- Hypotheses of C2, as the claim states them: the assembled tile grid is a
`puzzle_len × puzzle_len` grid of square `tile_len`-sided tiles in which every
tile fits (via `fits_south`) with the tile above it and (via `fits_east`) with
the tile to its left. -/
def StitchHyp (g : List (List Tile)) (tile_len puzzle_len : Nat) : Prop :=
  2 ≤ tile_len ∧ g.length = puzzle_len ∧
  (∀ row ∈ g, row.length = puzzle_len) ∧
  (∀ row ∈ g, ∀ t ∈ row, GridWF tile_len t.grid) ∧
  (∀ i, i < puzzle_len - 1 → ∀ j, j < puzzle_len →
    (tile_at g i j).fits_south (tile_at g (i + 1) j) = true) ∧
  (∀ i, i < puzzle_len → ∀ j, j < puzzle_len - 1 →
    (tile_at g i j).fits_east (tile_at g i (j + 1)) = true)

instance (g : List (List Tile)) (T P : Nat) : Decidable (StitchHyp g T P) := by
  unfold StitchHyp; infer_instance

/-- Conclusion of C2: `AssembledImage::new` succeeds (its border assertions
hold), and the image is a square bitmap of side `(tile_len - 2) * puzzle_len`
whose pixel `(x, y)` is the interior pixel
`(x mod (tile_len-2) + 1, y mod (tile_len-2) + 1)` of tile
`(x / (tile_len-2), y / (tile_len-2))` — each tile's interior with its
outermost rows and columns removed. -/
def StitchSpec (g : List (List Tile)) (tile_len puzzle_len : Nat) : Prop :=
  ∃ img, AssembledImage.new g tile_len puzzle_len = some img ∧
    GridWF ((tile_len - 2) * puzzle_len) img.tile.grid ∧
    ∀ x y, x < (tile_len - 2) * puzzle_len → y < (tile_len - 2) * puzzle_len →
      gget img.tile.grid x y =
        gget (tile_at g (x / (tile_len - 2)) (y / (tile_len - 2))).grid
          (x % (tile_len - 2) + 1) (y % (tile_len - 2) + 1)

/-- Conclusion of C8 for a square tile with `times_reoriented = 0`: eight
`reorient` calls restore the grid, the eight grids visited along the way are
(as a multiset) exactly the four 90-degree rotations of the grid together
with the four 90-degree rotations of its reflection, and the reflection is
the transpose. -/
def ReorientOrbit (t : Tile) : Prop :=
  (reorient_iter 8 t).grid = t.grid ∧
  ((List.range 8).map (fun k => (reorient_iter (k + 1) t).grid)).Perm
    [t.grid,
     gridRotate t.len t.grid,
     gridRotate t.len (gridRotate t.len t.grid),
     gridRotate t.len (gridRotate t.len (gridRotate t.len t.grid)),
     gridReflect t.len t.grid,
     gridRotate t.len (gridReflect t.len t.grid),
     gridRotate t.len (gridRotate t.len (gridReflect t.len t.grid)),
     gridRotate t.len (gridRotate t.len (gridRotate t.len (gridReflect t.len t.grid)))] ∧
  (∀ i j, i < t.len → j < t.len →
    gget (gridReflect t.len t.grid) i j = gget t.grid j i)

/-- The shape of every successful day-25 run's output: eight lines, of which
line 5 (0-based) is the single numeric answer and line 7, the part-2 output,
is the non-numeric placeholder string. -/
def Day25OutputSpec (out : List String) : Prop :=
  out.length = 8 ∧
  (∃ k : Nat, out.getD 5 "" = "Answer (encryption key): " ++ toString k) ∧
  out.getD 7 "" = "Freebie!"

/-! ### Concrete inputs used by counterexamples and witnesses -/

/-- Build a 10×10 tile grid from the list of its `true` cells. -/
def cellsGrid (cells : List (Nat × Nat)) : List (List Bool) :=
  mkGrid 10 (fun i j => decide ((i, j) ∈ cells))

/-- Tile 1000 of the C1 counterexample puzzle.  Its North and South edges are
the same pattern, so their common unoriented id 6 occurs twice globally but in
no other tile; its East and West edges are globally unique. -/
def cexTileA : Tile :=
  { id := 1000,
    grid := cellsGrid [(0, 7), (0, 8), (9, 7), (9, 8), (6, 9), (8, 9), (5, 0), (8, 0)],
    times_reoriented := 0 }

/-- Tile 1001 of the C1 counterexample puzzle: North and East edges shared
with tile 1002, South and West globally unique. -/
def cexTileB : Tile :=
  { id := 1001,
    grid := cellsGrid [(0, 4), (0, 8), (3, 9), (8, 9), (9, 2), (9, 8), (7, 0)],
    times_reoriented := 0 }

/-- Tile 1002 of the C1 counterexample puzzle: North and East edges shared
with tile 1001, South and West globally unique. -/
def cexTileC : Tile :=
  { id := 1002,
    grid := cellsGrid [(0, 4), (0, 8), (3, 9), (8, 9), (9, 6), (9, 7), (5, 0), (6, 0)],
    times_reoriented := 0 }

/-- Tile 1003 of the C1 counterexample puzzle: like tile 1000, its North and
South edges share one unoriented id occurring in no other tile. -/
def cexTileD : Tile :=
  { id := 1003,
    grid := cellsGrid [(0, 4), (0, 5), (3, 9), (6, 9), (9, 4), (9, 5), (2, 0), (7, 0)],
    times_reoriented := 0 }

/-- The four-tile counterexample puzzle for C1. -/
def cexPuzzle : UnsortedPuzzle :=
  { tiles := [cexTileA, cexTileB, cexTileC, cexTileD] }

/-- A single 10×10 tile all four of whose unoriented edge ids are distinct
(hence, alone in a puzzle, all four are boundary edges). -/
def loneTile : Tile :=
  { id := 1111,
    grid := cellsGrid [(0, 7), (0, 8), (6, 9), (8, 9), (9, 5), (9, 8), (4, 0), (8, 0)],
    times_reoriented := 0 }

/-- The one-tile puzzle around `loneTile`. -/
def lonePuzzle : UnsortedPuzzle := { tiles := [loneTile] }

/-- An all-false square tile of side 3 (every edge id is 0). -/
def blankTile : Tile :=
  { id := 1, grid := mkGrid 3 (fun _ _ => false), times_reoriented := 0 }

/-- A 2×2 assembled grid of identical blank tiles: every adjacent pair fits,
so it satisfies `StitchHyp` with `tile_len = 3`, `puzzle_len = 2`. -/
def blankAssembled : List (List Tile) :=
  [[blankTile, blankTile], [blankTile, blankTile]]

/-- A 20×20 all-true image: a sea monster is present at the origin. -/
def fullImage : AssembledImage :=
  { tile := { id := 0, grid := mkGrid 20 (fun _ _ => true), times_reoriented := 0 } }

/-- A small square tile used to instantiate the reorientation orbit claim. -/
def orbitTile : Tile :=
  { id := 7, grid := [[true, false], [false, false]], times_reoriented := 0 }

/-- The malformed-header day-20 input for C6: the header id slice is `+123`,
which is not a 4-digit id yet parses as an unsigned integer. -/
def plusHeaderLines : List String :=
  ["Tile +123:",
   "..........", "..........", "..........", "..........", "..........",
   "..........", "..........", "..........", "..........", "..........",
   ""]

/-- The two public keys of the worked example for day 25 (`7^8` and
`7^11 mod 20201227`), as file lines. -/
def day25ExampleLines : List String := ["5764801", "17807724"]

/-- The output day 25 prints on `day25ExampleLines`. -/
def day25ExampleOutput : List String :=
  ["Device public key: 5764801",
   "Door public key: 17807724",
   "===== Part 1 =====",
   "Device loop size: 8",
   "Door loop size: 11",
   "Answer (encryption key): 14897079",
   "===== Part 2 =====",
   "Freebie!"]

/-! ## Helper lemmas about grids -/

theorem length_mkGrid (n : Nat) (f : Nat → Nat → Bool) : (mkGrid n f).length = n := by
  simp [mkGrid]

theorem wf_mkGrid (n : Nat) (f : Nat → Nat → Bool) : GridWF n (mkGrid n f) := by
  refine ⟨by simp [mkGrid], ?_⟩
  intro r hr
  simp only [mkGrid, List.mem_map] at hr
  obtain ⟨i, -, rfl⟩ := hr
  simp

theorem getD_map_range {β : Type} (f : Nat → β) {n j : Nat} (d : β) (h : j < n) :
    ((List.range n).map f).getD j d = f j := by
  have hlen : j < ((List.range n).map f).length := by simpa using h
  rw [List.getD_eq_getElem _ _ hlen]
  simp

theorem gget_mkGrid {n i j : Nat} (f : Nat → Nat → Bool) (hi : i < n) (hj : j < n) :
    gget (mkGrid n f) i j = f i j := by
  unfold gget mkGrid
  rw [getD_map_range _ _ hi, getD_map_range _ _ hj]

theorem grid_ext {n : Nat} {g h : List (List Bool)} (hg : GridWF n g) (hh : GridWF n h)
    (he : ∀ i j, i < n → j < n → gget g i j = gget h i j) : g = h := by
  apply List.ext_getElem (by rw [hg.1, hh.1])
  intro i hi₁ hi₂
  have hgi : g[i] ∈ g := List.getElem_mem hi₁
  have hhi : h[i] ∈ h := List.getElem_mem hi₂
  apply List.ext_getElem (by rw [hg.2 _ hgi, hh.2 _ hhi])
  intro j hj₁ hj₂
  have hin : i < n := by have := hg.1; omega
  have hjn : j < n := by have := hg.2 _ hgi; omega
  have h1 : gget g i j = g[i][j] := by
    unfold gget
    rw [List.getD_eq_getElem _ _ hi₁, List.getD_eq_getElem _ _ hj₁]
  have h2 : gget h i j = h[i][j] := by
    unfold gget
    rw [List.getD_eq_getElem _ _ hi₂]
    rw [List.getD_eq_getElem _ _ (by rw [hh.2 _ hhi]; omega)]
  rw [← h1, ← h2]
  exact he i j hin hjn

theorem length_gridRotate (n : Nat) (g : List (List Bool)) :
    (gridRotate n g).length = n := length_mkGrid _ _

theorem length_gridReflect (n : Nat) (g : List (List Bool)) :
    (gridReflect n g).length = n := length_mkGrid _ _

theorem gget_gridRotate {n i j : Nat} (g : List (List Bool)) (hi : i < n) (hj : j < n) :
    gget (gridRotate n g) i j = gget g (n - 1 - j) i := gget_mkGrid _ hi hj

theorem gget_gridReflect {n i j : Nat} (g : List (List Bool)) (hi : i < n) (hj : j < n) :
    gget (gridReflect n g) i j = gget g j i := gget_mkGrid _ hi hj

theorem gridRotate_wf (n : Nat) (g : List (List Bool)) : GridWF n (gridRotate n g) :=
  wf_mkGrid _ _

theorem gridReflect_wf (n : Nat) (g : List (List Bool)) : GridWF n (gridReflect n g) :=
  wf_mkGrid _ _

theorem gridRotate_four {n : Nat} {g : List (List Bool)} (h : GridWF n g) :
    gridRotate n (gridRotate n (gridRotate n (gridRotate n g))) = g := by
  apply grid_ext (gridRotate_wf _ _) h
  intro i j hi hj
  have hn : 0 < n := by omega
  rw [gget_gridRotate _ hi hj]
  rw [gget_gridRotate _ (by omega) hi]
  rw [gget_gridRotate _ (by omega) (by omega)]
  rw [gget_gridRotate _ (by omega) (by omega)]
  congr 1 <;> omega

theorem gridReflect_two {n : Nat} {g : List (List Bool)} (h : GridWF n g) :
    gridReflect n (gridReflect n g) = g := by
  apply grid_ext (gridReflect_wf _ _) h
  intro i j hi hj
  rw [gget_gridReflect _ hi hj, gget_gridReflect _ hj hi]

/-! ## Helper lemmas about `reorient` -/

theorem Tile.reorient_id (t : Tile) : t.reorient.id = t.id := by
  unfold Tile.reorient Tile.reflect Tile.rotate
  dsimp only
  split <;> rfl

theorem Tile.reorient_times (t : Tile) :
    t.reorient.times_reoriented = t.times_reoriented + 1 := by
  unfold Tile.reorient Tile.reflect Tile.rotate
  dsimp only
  split <;> rfl

theorem Tile.reorient_len (t : Tile) : t.reorient.len = t.len := by
  unfold Tile.reorient Tile.reflect Tile.rotate Tile.len
  dsimp only
  split <;> simp [gridReflect, gridRotate, length_mkGrid]

theorem Tile.reorient_grid (t : Tile) :
    t.reorient.grid =
      if (t.times_reoriented + 1) % 4 = 0 then
        gridReflect t.len (gridRotate t.len t.grid)
      else gridRotate t.len t.grid := by
  unfold Tile.reorient Tile.reflect Tile.rotate
  dsimp only
  split <;> simp [Tile.len, length_gridRotate]

theorem reorient_iter_succ (k : Nat) (t : Tile) :
    reorient_iter (k + 1) t = (reorient_iter k t).reorient := by
  induction k generalizing t with
  | zero => rfl
  | succ k ih =>
    show reorient_iter (k + 1) t.reorient = _
    rw [ih t.reorient]
    rfl

theorem reorient_iter_times (k : Nat) (t : Tile) :
    (reorient_iter k t).times_reoriented = t.times_reoriented + k := by
  induction k with
  | zero => rfl
  | succ k ih => rw [reorient_iter_succ, Tile.reorient_times, ih]; omega

theorem reorient_iter_len (k : Nat) (t : Tile) :
    (reorient_iter k t).len = t.len := by
  induction k with
  | zero => rfl
  | succ k ih => rw [reorient_iter_succ, Tile.reorient_len, ih]

/-! ## C8: `reorient` enumerates all 8 rotations and reflections -/

/-- C8.  For every square tile with `times_reoriented = 0`, applying
`Tile::reorient` eight times restores the tile's original grid, and the eight
grids visited along the way are exactly the four 90-degree rotations of the
grid and the four 90-degree rotations of its transpose (the code's `reflect`,
shown in the last conjunct to be the transpose). -/
theorem claim8_reorient_orbit (t : Tile) (hwf : GridWF t.len t.grid)
    (h0 : t.times_reoriented = 0) : ReorientOrbit t := by
  have step : ∀ k, (reorient_iter (k + 1) t).grid =
      if (k + 1) % 4 = 0 then
        gridReflect t.len (gridRotate t.len (reorient_iter k t).grid)
      else gridRotate t.len (reorient_iter k t).grid := by
    intro k
    rw [reorient_iter_succ, Tile.reorient_grid, reorient_iter_len,
      reorient_iter_times, h0]
    norm_num
  have e1 : (reorient_iter 1 t).grid = gridRotate t.len t.grid := by
    rw [step 0]; norm_num; rfl
  have e2 : (reorient_iter 2 t).grid =
      gridRotate t.len (gridRotate t.len t.grid) := by
    rw [step 1]; norm_num; rw [e1]
  have e3 : (reorient_iter 3 t).grid =
      gridRotate t.len (gridRotate t.len (gridRotate t.len t.grid)) := by
    rw [step 2]; norm_num; rw [e2]
  have e4 : (reorient_iter 4 t).grid = gridReflect t.len t.grid := by
    rw [step 3]; norm_num; rw [e3, gridRotate_four hwf]
  have e5 : (reorient_iter 5 t).grid =
      gridRotate t.len (gridReflect t.len t.grid) := by
    rw [step 4]; norm_num; rw [e4]
  have e6 : (reorient_iter 6 t).grid =
      gridRotate t.len (gridRotate t.len (gridReflect t.len t.grid)) := by
    rw [step 5]; norm_num; rw [e5]
  have e7 : (reorient_iter 7 t).grid =
      gridRotate t.len (gridRotate t.len (gridRotate t.len (gridReflect t.len t.grid))) := by
    rw [step 6]; norm_num; rw [e6]
  have e8 : (reorient_iter 8 t).grid = t.grid := by
    rw [step 7]; norm_num
    rw [e7, gridRotate_four (gridReflect_wf t.len t.grid), gridReflect_two hwf]
  refine ⟨e8, ?_, ?_⟩
  · have hr : List.range 8 = [0, 1, 2, 3, 4, 5, 6, 7] := rfl
    rw [hr]
    simp only [List.map_cons, List.map_nil]
    norm_num
    rw [e1, e2, e3, e4, e5, e6, e7, e8]
    exact @List.perm_append_comm _
      [gridRotate t.len t.grid,
       gridRotate t.len (gridRotate t.len t.grid),
       gridRotate t.len (gridRotate t.len (gridRotate t.len t.grid)),
       gridReflect t.len t.grid,
       gridRotate t.len (gridReflect t.len t.grid),
       gridRotate t.len (gridRotate t.len (gridReflect t.len t.grid)),
       gridRotate t.len (gridRotate t.len (gridRotate t.len (gridReflect t.len t.grid)))]
      [t.grid]
  · intro i j hi hj
    exact gget_gridReflect _ hi hj

/-- Witness for C8 at a concrete 2×2 tile. -/
theorem claim8_witness :
    GridWF orbitTile.len orbitTile.grid ∧ ReorientOrbit orbitTile :=
  ⟨by decide, claim8_reorient_orbit orbitTile (by decide) rfl⟩

/-! ## C3: the reorientation `while` loops terminate -/

theorem assemble_tile_isSome (p : UnsortedPuzzle) (above left : Option Tile) :
    ∀ (n : Nat) (t : Tile),
      (∃ k, k < n ∧ fits_southeast p above left (reorient_iter k t) = true) →
      (assemble_tile n p above left t).isSome = true := by
  intro n
  induction n with
  | zero =>
    rintro t ⟨k, hk, -⟩
    omega
  | succ n ih =>
    rintro t ⟨k, hk, hfit⟩
    by_cases h : fits_southeast p above left t = true
    · simp [assemble_tile, h]
    · have hk0 : k ≠ 0 := by
        rintro rfl
        exact h hfit
      have hstep : assemble_tile (n + 1) p above left t =
          assemble_tile n p above left t.reorient := by
        simp [assemble_tile, h]
      rw [hstep]
      apply ih
      refine ⟨k - 1, by omega, ?_⟩
      have : reorient_iter k t = reorient_iter (k - 1) t.reorient := by
        cases k with
        | zero => omega
        | succ m => rfl
      rwa [this] at hfit

theorem find_seamonster_orientation_isSome :
    ∀ (n : Nat) (img : AssembledImage),
      (∃ k, k < n ∧
        (AssembledImage.mk (reorient_iter k img.tile)).count_seamonsters ≠ 0) →
      (find_seamonster_orientation n img).isSome = true := by
  intro n
  induction n with
  | zero =>
    rintro img ⟨k, hk, -⟩
    omega
  | succ n ih =>
    rintro img ⟨k, hk, hmon⟩
    by_cases h : img.count_seamonsters = 0
    · have hk0 : k ≠ 0 := by
        rintro rfl
        exact hmon h
      have hstep : find_seamonster_orientation (n + 1) img =
          find_seamonster_orientation n { tile := img.tile.reorient } := by
        simp [find_seamonster_orientation, h]
      rw [hstep]
      apply ih
      refine ⟨k - 1, by omega, ?_⟩
      have : reorient_iter k img.tile = reorient_iter (k - 1) img.tile.reorient := by
        cases k with
        | zero => omega
        | succ m => rfl
      rwa [this] at hmon
    · simp [find_seamonster_orientation, h]

/-- C3.  Under the precondition that some orientation among the 8 reachable by
repeated `reorient` calls fits the already-placed neighbors, the `while` loop
of `assemble_tile` finishes within 8 iterations; and under the precondition
that some of the 8 orientations of the assembled image contains a sea monster,
the `while` loop of `find_seamonster_orientation` finishes within 8
iterations.  (Every other loop in the day-20 `main` iterates over a list or a
bounded integer range, so `main` terminates on every such input.) -/
theorem claim3_loops_terminate :
    (∀ (p : UnsortedPuzzle) (above left : Option Tile) (t : Tile),
      (∃ k, k < 8 ∧ fits_southeast p above left (reorient_iter k t) = true) →
      (assemble_tile 8 p above left t).isSome = true) ∧
    (∀ img : AssembledImage,
      (∃ k, k < 8 ∧
        (AssembledImage.mk (reorient_iter k img.tile)).count_seamonsters ≠ 0) →
      (find_seamonster_orientation 8 img).isSome = true) :=
  ⟨fun p above left t h => assemble_tile_isSome p above left 8 t h,
   fun img h => find_seamonster_orientation_isSome 8 img h⟩

/-- Witness for C3: a lone tile whose four edges are all boundary edges fits
at orientation 0, and the all-true image contains sea monsters at
orientation 0. -/
theorem claim3_witness :
    (assemble_tile 8 lonePuzzle none none loneTile).isSome = true ∧
    (find_seamonster_orientation 8 fullImage).isSome = true :=
  ⟨claim3_loops_terminate.1 lonePuzzle none none loneTile ⟨0, by omega, by decide⟩,
   claim3_loops_terminate.2 fullImage ⟨0, by omega, by decide⟩⟩

/-! ## C10: sea-monster scanning never reads or writes out of bounds -/

/-- C10.  `seamonster_at` returns `false` immediately whenever the 3×20
monster window does not fit inside the image, and whenever it returns `true`
(the only case in which `erase_all_seamonsters` erases at `(i, j)`) every
monster coordinate it touches is strictly inside the grid; hence the scans of
`count_seamonsters` and `erase_all_seamonsters` over the full index range
never index outside the grid. -/
theorem claim10_seamonster_bounds :
    ∀ (img : AssembledImage) (i j : Nat),
      ((img.tile.len ≤ i + 2 ∨ img.tile.len ≤ j + 19) →
        img.seamonster_at i j = false) ∧
      (img.seamonster_at i j = true →
        ∀ d ∈ SEAMONSTER_COORDS, i + d.1 < img.tile.len ∧ j + d.2 < img.tile.len) := by
  intro img i j
  constructor
  · intro h
    simp [AssembledImage.seamonster_at, h]
  · intro h d hd
    have hc : ∀ d ∈ SEAMONSTER_COORDS, d.1 ≤ 2 ∧ d.2 ≤ 19 := by decide
    have hbound := hc d hd
    unfold AssembledImage.seamonster_at at h
    split at h
    · exact absurd h (by simp)
    · rename_i hg
      push_neg at hg
      omega

/-- Witness for C10 on the 20×20 all-true image: the window starting at row 25
is rejected, and the monster at the origin stays in bounds. -/
theorem claim10_witness :
    fullImage.seamonster_at 25 0 = false ∧
    (0 + 1 < fullImage.tile.len ∧ 0 + 0 < fullImage.tile.len) :=
  ⟨(claim10_seamonster_bounds fullImage 25 0).1 (Or.inl (by decide)),
   (claim10_seamonster_bounds fullImage 0 0).2 (by decide) (1, 0) (by decide)⟩

/-! ## Helper lemmas about `bools_to_int` and edge equality -/

theorem bools_to_int_foldl (l : List Bool) (a : Nat) :
    l.foldl (fun a b => 2 * a + b.toNat) a = a * 2 ^ l.length + bools_to_int l := by
  induction l generalizing a with
  | nil => simp [bools_to_int]
  | cons b l ih =>
    have hb : bools_to_int (b :: l) = b.toNat * 2 ^ l.length + bools_to_int l := by
      show l.foldl (fun a b => 2 * a + b.toNat) (2 * 0 + b.toNat) = _
      rw [ih]
      ring_nf
    simp only [List.foldl_cons, List.length_cons, hb]
    rw [ih]
    ring

theorem bools_to_int_cons (b : Bool) (l : List Bool) :
    bools_to_int (b :: l) = b.toNat * 2 ^ l.length + bools_to_int l := by
  show l.foldl (fun a b => 2 * a + b.toNat) (2 * 0 + b.toNat) = _
  rw [bools_to_int_foldl]
  ring_nf

theorem bools_to_int_lt (l : List Bool) : bools_to_int l < 2 ^ l.length := by
  induction l with
  | nil => simp [bools_to_int]
  | cons b l ih =>
    rw [bools_to_int_cons]
    have hpow : (2 : Nat) ^ (b :: l).length = 2 * 2 ^ l.length := by
      rw [List.length_cons, pow_succ]; ring
    have hx : b.toNat ≤ 1 := Bool.toNat_le b
    rw [hpow]
    nlinarith [ih]

theorem bools_to_int_inj : ∀ {l₁ l₂ : List Bool}, l₁.length = l₂.length →
    bools_to_int l₁ = bools_to_int l₂ → l₁ = l₂ := by
  intro l₁
  induction l₁ with
  | nil =>
    intro l₂ hlen _
    exact (List.eq_nil_of_length_eq_zero hlen.symm).symm
  | cons b l ih =>
    intro l₂ hlen h
    cases l₂ with
    | nil => simp at hlen
    | cons c m =>
      have hlen' : l.length = m.length := by simpa using hlen
      rw [bools_to_int_cons, bools_to_int_cons, hlen'] at h
      have h₁ := bools_to_int_lt l
      have h₂ := bools_to_int_lt m
      rw [hlen'] at h₁
      have hbc : b = c := by
        cases b <;> cases c <;> first
        | rfl
        | (simp only [Bool.toNat_true, Bool.toNat_false] at h; omega)
      subst hbc
      have hlm : l = m := ih hlen' (by omega)
      rw [hlm]

theorem get_edge_south_id (t : Tile) :
    (t.get_edge South).oriented_id =
      bools_to_int ((List.range t.len).map (fun j => gget t.grid (t.len - 1) j)) := by
  simp only [Tile.get_edge, Tile.edge_from_coords, EdgeInfo.from_bools,
    EdgeInfo.oriented_id, List.map_map]
  rfl

theorem get_edge_north_id (t : Tile) :
    (t.get_edge North).oriented_id =
      bools_to_int ((List.range t.len).map (fun j => gget t.grid 0 j)) := by
  simp only [Tile.get_edge, Tile.edge_from_coords, EdgeInfo.from_bools,
    EdgeInfo.oriented_id, List.map_map]
  rfl

theorem get_edge_east_id (t : Tile) :
    (t.get_edge East).oriented_id =
      bools_to_int ((List.range t.len).map (fun i => gget t.grid i (t.len - 1))) := by
  simp only [Tile.get_edge, Tile.edge_from_coords, EdgeInfo.from_bools,
    EdgeInfo.oriented_id, List.map_map]
  rfl

theorem get_edge_west_id (t : Tile) :
    (t.get_edge West).oriented_id =
      bools_to_int ((List.range t.len).map (fun i => gget t.grid i 0)) := by
  simp only [Tile.get_edge, Tile.edge_from_coords, EdgeInfo.from_bools,
    EdgeInfo.oriented_id, List.map_map]
  rfl

theorem map_range_inj {β : Type} {n : Nat} {f h : Nat → β}
    (he : (List.range n).map f = (List.range n).map h) :
    ∀ j, j < n → f j = h j := by
  intro j hj
  have h3 : ((List.range n).map f).getD j (f j) = ((List.range n).map h).getD j (f j) := by
    rw [he]
  rw [getD_map_range f _ hj, getD_map_range h _ hj] at h3
  exact h3

/-- Matching oriented south/north edge ids force the touching pixel rows to
agree (the binary encoding of a fixed-length row is injective). -/
theorem fits_south_pointwise {T : Nat} {a b : Tile}
    (ha : GridWF T a.grid) (hb : GridWF T b.grid)
    (h : a.fits_south b = true) :
    ∀ j, j < T → gget a.grid (T - 1) j = gget b.grid 0 j := by
  have hal : a.len = T := ha.1
  have hbl : b.len = T := hb.1
  unfold Tile.fits_south Tile.fits_core at h
  rw [beq_iff_eq, get_edge_south_id, get_edge_north_id, hal, hbl] at h
  have hlists := bools_to_int_inj (by simp) h
  exact map_range_inj hlists

/-- Matching oriented east/west edge ids force the touching pixel columns to
agree. -/
theorem fits_east_pointwise {T : Nat} {a b : Tile}
    (ha : GridWF T a.grid) (hb : GridWF T b.grid)
    (h : a.fits_east b = true) :
    ∀ i, i < T → gget a.grid i (T - 1) = gget b.grid i 0 := by
  have hal : a.len = T := ha.1
  have hbl : b.len = T := hb.1
  unfold Tile.fits_east Tile.fits_core at h
  rw [beq_iff_eq, get_edge_east_id, get_edge_west_id, hal, hbl] at h
  have hlists := bools_to_int_inj (by simp) h
  exact map_range_inj hlists

theorem Tile.new_mkGrid (id n : Nat) (f : Nat → Nat → Bool) :
    Tile.new id (mkGrid n f) = some ⟨id, mkGrid n f, 0⟩ := by
  unfold Tile.new
  rw [if_pos]
  rw [List.all_eq_true]
  intro r hr
  have h1 := (wf_mkGrid n f).2 r hr
  have h2 := (wf_mkGrid n f).1
  rw [beq_iff_eq, h1, h2]

/-! ## C2: image stitching -/

/-- C2.  Given a `puzzle_len × puzzle_len` grid of square `tile_len`-sided
tiles in which (as `assemble_tile` guarantees) every tile `fits_south` with
the tile above it and `fits_east` with the tile to its left, the
border-consistency assertions of `AssembledImage::new` never fail, and the
produced image is a square bitmap of side `(tile_len - 2) * puzzle_len`
obtained by stitching each tile's interior with its outermost rows and
columns removed. -/
theorem claim2_image_stitching (g : List (List Tile)) (T P : Nat)
    (h : StitchHyp g T P) : StitchSpec g T P := by
  obtain ⟨hT, hglen, hrowlen, hwf, hsouth, heast⟩ := h
  have htile : ∀ i j, i < P → j < P → GridWF T (tile_at g i j).grid := by
    intro i j hi hj
    have hi' : i < g.length := by omega
    have hrowmem : g.getD i [] ∈ g := by
      rw [List.getD_eq_getElem _ _ hi']
      exact List.getElem_mem hi'
    have hj' : j < (g.getD i []).length := by
      rw [hrowlen _ hrowmem]; omega
    have hmem : (g.getD i []).getD j { id := 0, grid := [], times_reoriented := 0 }
        ∈ g.getD i [] := by
      rw [List.getD_eq_getElem _ _ hj']
      exact List.getElem_mem hj'
    exact hwf _ hrowmem _ hmem
  have hok : stitch_asserts_ok g T P = true := by
    unfold stitch_asserts_ok
    simp only [List.all_eq_true, List.mem_range]
    intro row hrowP col hcolP
    rw [Bool.and_eq_true, Bool.or_eq_true, Bool.or_eq_true]
    constructor
    · by_cases h0 : row = 0
      · left; simp [h0]
      · right
        rw [List.all_eq_true]
        intro j hj
        rw [List.mem_range] at hj
        rw [beq_iff_eq]
        have hfit := hsouth (row - 1) (by omega) col hcolP
        rw [show row - 1 + 1 = row from by omega] at hfit
        have hpt := fits_south_pointwise (htile _ _ (by omega) hcolP)
          (htile _ _ (by omega) hcolP) hfit
        exact (hpt j (by omega)).symm
    · by_cases h0 : col = 0
      · left; simp [h0]
      · right
        rw [List.all_eq_true]
        intro i hi
        rw [List.mem_range] at hi
        rw [beq_iff_eq]
        have hfit := heast row hrowP (col - 1) (by omega)
        rw [show col - 1 + 1 = col from by omega] at hfit
        have hpt := fits_east_pointwise (htile _ _ hrowP (by omega))
          (htile _ _ hrowP (by omega)) hfit
        exact (hpt i (by omega)).symm
  have hcanvas : stitch_canvas g T P =
      mkGrid ((T - 2) * P) (fun x y =>
        gget (tile_at g (x / (T - 2)) (y / (T - 2))).grid
          (x % (T - 2) + 1) (y % (T - 2) + 1)) := rfl
  refine ⟨{ tile := ⟨0, stitch_canvas g T P, 0⟩ }, ?_, ?_, ?_⟩
  · unfold AssembledImage.new
    rw [if_pos hok, hcanvas, Tile.new_mkGrid]
    rfl
  · rw [hcanvas]
    exact wf_mkGrid _ _
  · intro x y hx hy
    show gget (stitch_canvas g T P) x y = _
    rw [hcanvas, gget_mkGrid _ hx hy]

/-- Witness for C2: a 2×2 grid of identical blank 3×3 tiles. -/
theorem claim2_witness :
    StitchHyp blankAssembled 3 2 ∧ StitchSpec blankAssembled 3 2 :=
  ⟨by decide, claim2_image_stitching blankAssembled 3 2 (by decide)⟩

/-! ## C1: corner classification and the Part 1 answer -/

theorem sort_fold_corners (p : UnsortedPuzzle) :
    ∀ (ts : List Tile) (acc s0 : SortedPuzzle),
      sort_fold p ts acc = some s0 →
      s0.corner_tiles =
        acc.corner_tiles ++ ts.filter (fun t => t.unique_edges p == 2) := by
  intro ts
  induction ts with
  | nil =>
    intro acc s0 h
    simp only [sort_fold] at h
    cases h
    simp
  | cons t ts ih =>
    intro acc s0 h
    unfold sort_fold at h
    cases hstep : sort_step p acc t with
    | none => rw [hstep] at h; exact absurd h (by simp)
    | some acc' =>
      rw [hstep] at h
      have hrest := ih acc' s0 h
      rcases hue : t.unique_edges p with _ | _ | _ | k
      · simp only [sort_step, hue] at hstep
        cases hstep
        rw [hrest]
        simp [List.filter_cons, hue]
      · simp only [sort_step, hue] at hstep
        cases hstep
        rw [hrest]
        simp [List.filter_cons, hue]
      · simp only [sort_step, hue] at hstep
        cases hstep
        rw [hrest]
        simp [List.filter_cons, hue]
      · simp only [sort_step, hue] at hstep
        exact absurd hstep (by simp)

/-- C1, amended.  For a puzzle with distinct tile ids satisfying the asserted
edge-count precondition, whenever `SortedPuzzle::new` completes without
panicking: a tile is classified as a corner if and only if exactly two of its
four edges have unoriented ids whose global occurrence count among all tile
edges is 1; the corner list has length 4 (as `check_tile_counts` asserts); and
the printed Part 1 answer is the product of the ids of the tiles so
classified. -/
theorem claim1_part1_amended (p : UnsortedPuzzle)
    (_hnodup : (p.tiles.map Tile.id).Nodup)
    (_hpre : EdgeCountPre p)
    (hsome : (SortedPuzzle.new p).isSome = true) : Part1Spec p := by
  obtain ⟨s, hs⟩ := Option.isSome_iff_exists.mp hsome
  have hcorn : s.corner_tiles = p.tiles.filter (fun t => t.unique_edges p == 2) ∧
      s.corner_tiles.length = 4 := by
    have hs' := hs
    unfold SortedPuzzle.new at hs'
    cases hfold : sort_fold p p.tiles
        { corner_tiles := [], edge_tiles := [], inside_tiles := [], puzzle_len := 0 } with
    | none =>
      rw [hfold] at hs'
      dsimp only at hs'
      exact absurd hs' (by simp)
    | some s0 =>
      rw [hfold] at hs'
      dsimp only at hs'
      have hfilter := sort_fold_corners p p.tiles _ _ hfold
      simp only [List.nil_append] at hfilter
      split at hs'
      · rename_i hchk
        have hse : s = { s0 with puzzle_len := s0.edge_tiles.length / 4 + 2 } :=
          (Option.some.inj hs').symm
        have hscorn : s.corner_tiles = s0.corner_tiles := by rw [hse]
        refine ⟨by rw [hscorn, hfilter], ?_⟩
        unfold SortedPuzzle.check_tile_counts at hchk
        simp only [Bool.and_eq_true, beq_iff_eq] at hchk
        rw [hscorn]
        exact hchk.1.1.1.1
      · exact absurd hs' (by simp)
  have hcof : corners_of p = s.corner_tiles := by
    unfold corners_of
    rw [hs]
    rfl
  refine ⟨?_, ?_, ?_⟩
  · intro t ht
    rw [hcof, hcorn.1]
    simp [List.mem_filter, ht]
  · rw [hcof]
    exact hcorn.2
  · rw [hs]
    show part1_answer s = _
    unfold part1_answer
    rw [hcorn.1]

/-- C1 counterexample.  The four-tile puzzle `cexPuzzle` satisfies the
asserted precondition (every unoriented edge id occurs once or twice among all
tile edges) and `SortedPuzzle::new` completes, classifying tile 1000 as a
corner — yet the number of tile 1000's four unoriented edge ids that occur in
no other tile is 4, not 2 (its North and South edges share one globally unique
id).  So "classified as a corner iff exactly two of its four unoriented edge
ids occur in no other tile" is false on the code. -/
theorem claim1_counterexample :
    EdgeCountPre cexPuzzle ∧
    (cexPuzzle.tiles.map Tile.id).Nodup ∧
    (SortedPuzzle.new cexPuzzle).isSome = true ∧
    cexTileA ∈ corners_of cexPuzzle ∧
    spec_no_other_tile_count cexPuzzle cexTileA ≠ 2 := by
  decide

/-- Witness for the amended C1 on the concrete puzzle `cexPuzzle`. -/
theorem claim1_witness :
    ((cexPuzzle.tiles.map Tile.id).Nodup ∧ EdgeCountPre cexPuzzle ∧
      (SortedPuzzle.new cexPuzzle).isSome = true) ∧ Part1Spec cexPuzzle :=
  ⟨⟨by decide, by decide, by decide⟩,
   claim1_part1_amended cexPuzzle (by decide) (by decide) (by decide)⟩

/-! ## C9: day-25 modular exponentiation -/

theorem MODULUS_pos : 0 < MODULUS := by decide

theorem MODULUS_sq_lt_USIZE : MODULUS * MODULUS < USIZE := by decide

theorem mul_pow_mod (a b n m : Nat) : a * (b % m) ^ n % m = a * b ^ n % m := by
  rw [Nat.mul_mod]
  rw [← Nat.pow_mod]
  rw [← Nat.mul_mod]

/-- The repeated-squaring loop computes `result * base ^ pow (mod MODULUS)`;
in particular no intermediate product ever reaches the 64-bit wrap, since both
factors stay below `MODULUS`. -/
theorem encrypt_loop_eq :
    ∀ (fuel base pow result : Nat), pow < 2 ^ fuel →
      base < MODULUS → result < MODULUS →
      encrypt_loop fuel base pow result = result * base ^ pow % MODULUS := by
  intro fuel
  induction fuel with
  | zero =>
    intro base pow result hpow _ hres
    have hp0 : pow = 0 := by simpa using hpow
    subst hp0
    simp [encrypt_loop, Nat.mod_eq_of_lt hres]
  | succ fuel ih =>
    intro base pow result hpow hbase hres
    by_cases hp0 : pow = 0
    · subst hp0
      simp [encrypt_loop, Nat.mod_eq_of_lt hres]
    · have hstep : encrypt_loop (fuel + 1) base pow result =
          encrypt_loop fuel (base * base % USIZE % MODULUS) (pow / 2)
            (if pow % 2 = 1 then result * base % USIZE % MODULUS else result) := by
        simp [encrypt_loop, hp0]
      have hbb : base * base % USIZE = base * base := by
        apply Nat.mod_eq_of_lt
        calc base * base < MODULUS * MODULUS := by
              exact Nat.mul_lt_mul_of_lt_of_lt hbase hbase
          _ < USIZE := MODULUS_sq_lt_USIZE
      have hrb : result * base % USIZE = result * base := by
        apply Nat.mod_eq_of_lt
        calc result * base < MODULUS * MODULUS := by
              exact Nat.mul_lt_mul_of_lt_of_lt hres hbase
          _ < USIZE := MODULUS_sq_lt_USIZE
      have hpow2 : pow / 2 < 2 ^ fuel := by
        rw [Nat.div_lt_iff_lt_mul (by norm_num)]
        calc pow < 2 ^ (fuel + 1) := hpow
          _ = 2 ^ fuel * 2 := by rw [pow_succ]
      have hbase' : base * base % USIZE % MODULUS < MODULUS :=
        Nat.mod_lt _ MODULUS_pos
      rw [hstep]
      rcases Nat.even_or_odd pow with he | ho
      · have hodd : ¬ pow % 2 = 1 := by
          have := Nat.even_iff.mp he
          omega
        rw [if_neg hodd]
        rw [ih _ _ _ hpow2 hbase' hres, hbb, mul_pow_mod]
        have h2 : pow = 2 * (pow / 2) := by
          have := Nat.even_iff.mp he
          omega
        congr 1
        conv_rhs => rw [h2]
        rw [pow_mul]
        ring
      · have hodd : pow % 2 = 1 := Nat.odd_iff.mp ho
        rw [if_pos hodd]
        have hres' : result * base % USIZE % MODULUS < MODULUS :=
          Nat.mod_lt _ MODULUS_pos
        rw [ih _ _ _ hpow2 hbase' hres']
        rw [hbb, hrb, mul_pow_mod, Nat.mod_mul_mod]
        have h2 : pow = 2 * (pow / 2) + 1 := by omega
        congr 1
        conv_rhs => rw [h2]
        rw [pow_succ, pow_mul]
        ring

theorem encrypt_eq (base pow : Nat) : encrypt base pow = base ^ pow % MODULUS := by
  unfold encrypt
  rw [encrypt_loop_eq (pow + 1) (base % MODULUS) pow 1 ?hpow ?hbase ?hres]
  · rw [one_mul, ← Nat.pow_mod]
  case hpow =>
    calc pow < 2 ^ pow := Nat.lt_two_pow pow
      _ ≤ 2 ^ (pow + 1) := Nat.pow_le_pow_right (by norm_num) (by omega)
  case hbase => exact Nat.mod_lt _ MODULUS_pos
  case hres => decide

/-- C9.  `encrypt base pow` is `base ^ pow` modulo 20201227 (the embedding
takes every intermediate product modulo `2 ^ 64`, so this also shows the
64-bit wrap never fires, all products of mod-reduced factors being below
`MODULUS ^ 2 < 2 ^ 64`); consequently, whenever the two public keys are
`encrypt 7 device_pow` and `encrypt 7 door_pow`, the three encryption-key
computations of `main` agree, so the two `assert_eq!` checks never fail. -/
theorem claim9_encrypt_modpow :
    (∀ base pow, encrypt base pow = base ^ pow % MODULUS) ∧
    (∀ device_pow door_pow device_pub door_pub,
      device_pub = encrypt 7 device_pow → door_pub = encrypt 7 door_pow →
      encrypt 7 (device_pow * door_pow) = encrypt device_pub door_pow ∧
      encrypt 7 (device_pow * door_pow) = encrypt door_pub device_pow) := by
  refine ⟨encrypt_eq, ?_⟩
  intro a b apub bpub ha hb
  subst ha hb
  constructor
  · rw [encrypt_eq, encrypt_eq, encrypt_eq, ← Nat.pow_mod, ← pow_mul]
  · rw [encrypt_eq, encrypt_eq, encrypt_eq, ← Nat.pow_mod, ← pow_mul]
    rw [Nat.mul_comm a b]

/-- Witness for C9 on the worked day-25 example keys (`7^8` and
`7^11 mod 20201227`). -/
theorem claim9_witness :
    5764801 = encrypt 7 8 ∧ 17807724 = encrypt 7 11 ∧
    (encrypt 7 (8 * 11) = encrypt 5764801 11 ∧
     encrypt 7 (8 * 11) = encrypt 17807724 8) := by
  have h1 : (5764801 : Nat) = encrypt 7 8 := by decide
  have h2 : (17807724 : Nat) = encrypt 7 11 := by decide
  exact ⟨h1, h2, claim9_encrypt_modpow.2 8 11 5764801 17807724 h1 h2⟩

/-! ## C5: the day-25 output shape -/

/-- C5 counterexample.  On the worked example input, the day-25 binary prints
six diagnostic/numeric lines, exactly one answer line, and the non-numeric
placeholder `"Freebie!"` as its entire part-2 output — not two numeric
answers.  (The claim "each of the ~25 solutions prints two numeric answers"
is therefore false of day 25.) -/
theorem claim5_counterexample :
    day25_main 20 day25ExampleLines = some day25ExampleOutput ∧
    is_numeric_string "Freebie!" = false ∧
    (day25ExampleOutput.filter (fun s => is_numeric_string s)).length = 0 := by
  refine ⟨by decide, by decide, by decide⟩

/-- C5, amended.  Every successful day-25 run prints exactly eight lines:
line 5 is its single numeric answer and line 7, the whole part-2 output, is
`"Freebie!"`.  (The fixed input path `input/day25.txt` and the absence of
command-line arguments are visible in `main` but outside the lines-to-lines
embedding.) -/
theorem claim5_day25_output (fuel : Nat) (lines out : List String)
    (h : day25_main fuel lines = some out) : Day25OutputSpec out := by
  unfold day25_main at h
  cases h1 : file_to_vec_parsed (fun s => parse_usize s.toList) lines with
  | none => rw [h1] at h; exact absurd h (by simp)
  | some input =>
    rw [h1] at h
    dsimp only at h
    cases h2 : iter_to_pair input with
    | none => rw [h2] at h; exact absurd h (by simp)
    | some pr =>
      rw [h2] at h
      obtain ⟨device_pub, door_pub⟩ := pr
      dsimp only at h
      cases h3 : brute_force_attack fuel 7 device_pub with
      | none => rw [h3] at h; exact absurd h (by simp)
      | some device_pow =>
        rw [h3] at h
        cases h4 : brute_force_attack fuel 7 door_pub with
        | none => rw [h4] at h; exact absurd h (by simp)
        | some door_pow =>
          rw [h4] at h
          dsimp only at h
          split at h
          · have hout := Option.some.inj h
            subst hout
            refine ⟨rfl, ⟨encrypt 7 (device_pow * door_pow), rfl⟩, rfl⟩
          · exact absurd h (by simp)

/-- Witness for the amended C5 at the worked example input. -/
theorem claim5_witness : Day25OutputSpec day25ExampleOutput :=
  claim5_day25_output 20 day25ExampleLines day25ExampleOutput (by decide)

/-! ## C6: malformed input makes parsing panic -/

theorem option_mapM_none {α β : Type} (f : α → Option β) :
    ∀ (l : List α) (x : α), x ∈ l → f x = none → option_mapM f l = none := by
  intro l
  induction l with
  | nil => intro x hx; simp at hx
  | cons a l ih =>
    intro x hx hfx
    rcases List.mem_cons.mp hx with rfl | hmem
    · simp [option_mapM, hfx]
    · cases hfa : f a with
      | none => simp [option_mapM, hfa]
      | some b => simp [option_mapM, hfa, ih x hmem hfx]

theorem parse_input_go_none :
    ∀ (k fuel : Nat) (ls : List String), 12 * k < ls.length →
      parse_block ((ls.drop (12 * k)).take 12) = none →
      parse_input_go fuel ls = none := by
  intro k
  induction k with
  | zero =>
    intro fuel ls hlen hblk
    cases fuel with
    | zero => rfl
    | succ fuel =>
      have hne : ls.isEmpty = false := by
        cases ls
        · simp at hlen
        · rfl
      rw [Nat.mul_zero, List.drop_zero] at hblk
      simp [parse_input_go, hne, hblk]
  | succ k ih =>
    intro fuel ls hlen hblk
    cases fuel with
    | zero => rfl
    | succ fuel =>
      have hne : ls.isEmpty = false := by
        cases ls
        · simp at hlen
        · rfl
      have hlen12 : 12 ≤ ls.length := by omega
      have hrest : parse_input_go fuel (ls.drop 12) = none := by
        apply ih fuel (ls.drop 12)
        · rw [List.length_drop]; omega
        · rw [List.drop_drop]
          have h12 : 12 + 12 * k = 12 * (k + 1) := by ring
          rw [h12]
          exact hblk
      cases hb : parse_block (ls.take 12) with
      | none => simp [parse_input_go, hne, hb]
      | some t => simp [parse_input_go, hne, hb, hrest]

theorem parse_block_none_header (block : List String)
    (h : (block.getD 0 "").toList.take 5 ≠ "Tile ".toList ∨
         parse_usize (((block.getD 0 "").toList.drop 5).take 4) = none ∨
         ((block.getD 0 "").toList.drop 9).take 1 ≠ [':'] ∨
         block.getD 11 "" ≠ "") :
    parse_block block = none := by
  unfold parse_block
  rcases h with h | h | h | h
  · rw [if_neg (fun hc => h hc.1)]
  · by_cases hc : ((block.getD 0 "").toList.take 5 = "Tile ".toList ∧
        (((block.getD 0 "").toList.drop 9).take 1 = [':']) ∧ block.getD 11 "" = "")
    · rw [if_pos hc, h]
    · rw [if_neg hc]
  · rw [if_neg (fun hc => h hc.2.1)]
  · rw [if_neg (fun hc => h hc.2.2)]

theorem parse_block_none_badchar (block : List String) (j : Nat) (hj : j < 10)
    (h : ∃ c ∈ (block.getD (j + 1) "").toList, c ≠ '#' ∧ c ≠ '.') :
    parse_block block = none := by
  have hrow : parse_row (block.getD (j + 1) "") = none := by
    obtain ⟨c, hc, h1, h2⟩ := h
    apply option_mapM_none _ _ c hc
    simp [h1, h2]
  have hmap : option_mapM (fun j => parse_row (block.getD (j + 1) ""))
      (List.range 10) = none :=
    option_mapM_none _ _ j (List.mem_range.mpr hj) hrow
  unfold parse_block
  by_cases hc : ((block.getD 0 "").toList.take 5 = "Tile ".toList ∧
      ((block.getD 0 "").toList.drop 9).take 1 = [':'] ∧ block.getD 11 "" = "")
  · rw [if_pos hc]
    cases hid : parse_usize (((block.getD 0 "").toList.drop 5).take 4) with
    | none => simp only [hid]
    | some tid =>
      simp only [hid]
      rw [hmap]
  · rw [if_neg hc]

/-- C6, amended.  Day 20's `parse_input` panics (returns `none`) when the
number of lines is not divisible by 12, and when any 12-line block is
malformed: a header not starting with `"Tile "`, a header whose id slice
(characters 5..9) does not parse as an unsigned integer — this is weaker than
"a 4-digit id", since e.g. `"+123"` also parses — a header without `':'` at
position 9, a missing blank line, or a grid character other than `'#'` and
`'.'`.  The shared reader `file_to_vec_parsed` panics on any unparseable
line.  (Its panic on a missing input file is file-system behaviour outside
this embedding.) -/
theorem claim6_parse_panics :
    (∀ lines : List String, lines.length % 12 ≠ 0 → parse_input lines = none) ∧
    (∀ (lines : List String) (k : Nat), 12 * k < lines.length →
      parse_block ((lines.drop (12 * k)).take 12) = none →
      parse_input lines = none) ∧
    (∀ block : List String,
      ((block.getD 0 "").toList.take 5 ≠ "Tile ".toList ∨
       parse_usize (((block.getD 0 "").toList.drop 5).take 4) = none ∨
       ((block.getD 0 "").toList.drop 9).take 1 ≠ [':'] ∨
       block.getD 11 "" ≠ "") → parse_block block = none) ∧
    (∀ (block : List String) (j : Nat), j < 10 →
      (∃ c ∈ (block.getD (j + 1) "").toList, c ≠ '#' ∧ c ≠ '.') →
      parse_block block = none) ∧
    (∀ (α : Type) (parse : String → Option α) (lines : List String),
      (∃ l ∈ lines, parse l = none) → file_to_vec_parsed parse lines = none) := by
  refine ⟨?_, ?_, parse_block_none_header, parse_block_none_badchar, ?_⟩
  · intro lines h
    simp [parse_input, h]
  · intro lines k hk hblk
    by_cases hm : lines.length % 12 = 0
    · unfold parse_input
      rw [if_pos hm]
      exact parse_input_go_none k _ lines hk hblk
    · simp [parse_input, hm]
  · intro α parse lines ⟨l, hl, hp⟩
    exact option_mapM_none parse lines l hl hp

/-- C6 counterexample.  The 12-line input whose header is `"Tile +123:"` has
a header that does not consist of `"Tile "` followed by a 4-digit id (its id
slice `"+123"` contains a non-digit), yet `parse_input` accepts it — Rust's
`usize` parser also accepts a leading `'+'` — so "parse_input panics when a
header line does not start with `"Tile "` followed by a 4-digit id and
`':'`" is false on the code. -/
theorem claim6_counterexample :
    parse_input plusHeaderLines ≠ none ∧
    (plusHeaderLines.getD 0 "").toList.take 5 = "Tile ".toList ∧
    ((((plusHeaderLines.getD 0 "").toList.drop 5).take 4).all Char.isDigit) = false := by
  refine ⟨by decide, by decide, by decide⟩

/-- Witness for the amended C6 at concrete malformed inputs. -/
theorem claim6_witness :
    parse_input ["x"] = none ∧
    parse_block ["Bad header"] = none ∧
    parse_block ["Tile 0001:", "#x"] = none ∧
    parse_input (List.replicate 12 "") = none ∧
    file_to_vec_parsed (fun s => parse_usize s.toList) ["abc"] = none :=
  ⟨claim6_parse_panics.1 ["x"] (by decide),
   claim6_parse_panics.2.2.1 ["Bad header"] (Or.inl (by decide)),
   claim6_parse_panics.2.2.2.1 ["Tile 0001:", "#x"] 0 (by decide)
     ⟨'x', by decide, by decide, by decide⟩,
   claim6_parse_panics.2.1 (List.replicate 12 "") 0 (by decide) (by decide),
   claim6_parse_panics.2.2.2.2 Nat (fun s => parse_usize s.toList) ["abc"]
     ⟨"abc", by decide, by decide⟩⟩
